import Mathlib

/-!
Verification of the document API endpoint (src/endpoint.py and
src/routes/user_document.py): a shallow embedding of the loader and the
query service, followed by theorems about the claimed properties.

Python values parsed from a YAML file are modelled by the inductive type
`Yaml` below.  Python dicts are modelled as insertion-ordered association
lists with string keys (the document schema uses string keys throughout);
Python dict assignment, lookup and membership are modelled by
`pyDictInsert`, `dictLookup`.  Fallible route handlers return
`Except ApiError`: `ApiError.httpException` models a raised
`fastapi.HTTPException` (caught by the framework and turned into the
matching HTTP status), while `ApiError.keyError` and `ApiError.otherFault`
model uncaught Python exceptions (`KeyError`, and `TypeError` or
`AttributeError` on non-mapping content) that escape the handler.
-/

/-- A parsed YAML value: strings, other scalars (numbers, booleans, null),
sequences, and mappings with string keys in insertion order. -/
inductive Yaml where
  | str (s : String) : Yaml
  | intv (n : Int) : Yaml
  | boolv (b : Bool) : Yaml
  | nullv : Yaml
  | list (xs : List Yaml) : Yaml
  | dict (es : List (String × Yaml)) : Yaml

/-- Models Python string lookup in a dict (first entry with the key; keys are
unique in dicts produced by the YAML parser). -/
def dictLookup (m : List (String × Yaml)) (k : String) : Option Yaml :=
  match m with
  | [] => none
  | (k0, v0) :: rest => if k0 = k then some v0 else dictLookup rest k

/-- Models Python dict assignment `m[k] = v`: replaces the value of an
existing key in place, otherwise appends the new binding. -/
def pyDictInsert (m : List (String × Yaml)) (k : String) (v : Yaml) :
    List (String × Yaml) :=
  match m with
  | [] => [(k, v)]
  | (k0, v0) :: rest =>
      if k0 = k then (k, v) :: rest else (k0, v0) :: pyDictInsert rest k v

/-- Models Python `s.rstrip(chr(10))`: removes every trailing newline
character from the string. -/
def rstripNewlines (s : String) : String :=
  String.mk ((s.data.reverse.dropWhile (fun c => c == '\n')).reverse)

mutual

/-- Models `transform_data` from src/endpoint.py: recursively enter dicts and
lists and strip trailing newlines from every string (keys included); any
other value is returned unchanged. -/
def transform_data : Yaml → Yaml
  | Yaml.dict es => Yaml.dict (transformEntries es)
  | Yaml.list xs => Yaml.list (transformList xs)
  | Yaml.str s => Yaml.str (rstripNewlines s)
  | Yaml.intv n => Yaml.intv n
  | Yaml.boolv b => Yaml.boolv b
  | Yaml.nullv => Yaml.nullv

/-- The list clause of `transform_data` (Python list comprehension). -/
def transformList : List Yaml → List Yaml
  | [] => []
  | x :: xs => transform_data x :: transformList xs

/-- The dict clause of `transform_data` (Python dict comprehension); dict
keys in the document schema are strings, so the recursive call on a key is
the string clause of the transform. -/
def transformEntries : List (String × Yaml) → List (String × Yaml)
  | [] => []
  | (k, v) :: es => (rstripNewlines k, transform_data v) :: transformEntries es

end

/-- Outcome of a route handler body: a raised `fastapi.HTTPException`
(mapped by the framework to its status code), or an uncaught Python
exception (`KeyError` from a missing dict key; `TypeError` or
`AttributeError` from treating a non-mapping as a dict). -/
inductive ApiError where
  | httpException (status_code : Nat) (detail : String) : ApiError
  | keyError (key : String) : ApiError
  | otherFault (detail : String) : ApiError
  deriving DecidableEq, Repr

/-- The store built at startup: document name to parsed content. -/
abbrev Store : Type := List (String × Yaml)

/-- Models `check_document_loaded` (identical in src/endpoint.py and
src/routes/user_document.py): return the loaded document, or raise a 404
`HTTPException` naming the missing document. -/
def check_document_loaded (document_name : String) (loaded_documents : Store) :
    Except ApiError Yaml :=
  match dictLookup loaded_documents document_name with
  | some content => Except.ok content
  | none => Except.error (ApiError.httpException 404
      ("Document " ++ document_name ++ ".yml not found"))

/-- Models the `GET /v1/{document}` handler `get_document_content`. -/
def get_document_content (document : String) (store : Store) :
    Except ApiError Yaml :=
  check_document_loaded document store

/-- Models Python `list.insert(i, x)` for a nonnegative index: inserts
before position `i`, appending when `i` is at or beyond the end. -/
def pyInsert (l : List α) (i : Nat) (x : α) : List α :=
  l.take i ++ x :: l.drop i

/-- Models the `GET /v1/{document}/sections` handler
`get_document_content_sections`: list the top-level keys, insert
`metadata` at index 6 and then `document_control` at index 10.  Calling
`.keys()` on non-mapping content is an uncaught `AttributeError`. -/
def get_document_content_sections (document : String) (store : Store) :
    Except ApiError (List String) := do
  let document_content ← check_document_loaded document store
  match document_content with
  | Yaml.dict es =>
      let sections := es.map Prod.fst
      let sections := pyInsert sections 6 "metadata"
      let sections := pyInsert sections 10 "document_control"
      return sections
  | _ => Except.error (ApiError.otherFault "content has no keys method")

/-- Models Python `content[k]` on document content: the value at key `k` of
a mapping, an uncaught `KeyError` when the key is absent, an uncaught
`TypeError` when the content is not a mapping. -/
def pyGetItem (content : Yaml) (k : String) : Except ApiError Yaml :=
  match content with
  | Yaml.dict es =>
      match dictLookup es k with
      | some v => Except.ok v
      | none => Except.error (ApiError.keyError k)
  | _ => Except.error (ApiError.otherFault "content is not subscriptable")

/-- Models the `GET /v1/{document}/metadata` handler
`get_document_content_metadata`: build the six-entry metadata dict; each
source field is read with plain subscription, so a missing field is an
uncaught `KeyError` (fields are read in the order of the dict literal). -/
def get_document_content_metadata (document : String) (store : Store) :
    Except ApiError (List (String × Yaml)) := do
  let content ← check_document_loaded document store
  let t ← pyGetItem content "type"
  let no ← pyGetItem content "document_no"
  let ed ← pyGetItem content "effective_date"
  let rev ← pyGetItem content "document_rev"
  let ti ← pyGetItem content "title"
  let code ← pyGetItem content "document_code"
  return [("document_type", t), ("document_no", no), ("effective_date", ed),
          ("document_rev", rev), ("title", ti), ("document_code", code)]

/-- Models the `GET /v1/{document}/document_control` handler
`get_document_document_control`: the three-entry projection, read with
plain subscription. -/
def get_document_document_control (document : String) (store : Store) :
    Except ApiError (List (String × Yaml)) := do
  let content ← check_document_loaded document store
  let rh ← pyGetItem content "revision_history"
  let pb ← pyGetItem content "prepared_by"
  let ra ← pyGetItem content "reviewed_approved_by"
  return [("revision_history", rh), ("prepared_by", pb),
          ("reviewed_approved_by", ra)]

/-- Models the `GET /v1/{document}/{section}` handler
`get_document_content_section`: 404 naming the section and the document
when the section key is absent, else the value stored at that key.
Membership testing on non-mapping content is an uncaught fault. -/
def get_document_content_section (document : String) (section_name : String)
    (store : Store) : Except ApiError Yaml := do
  let content ← check_document_loaded document store
  match content with
  | Yaml.dict es =>
      match dictLookup es section_name with
      | some v => return v
      | none => Except.error (ApiError.httpException 404
          ("Section '" ++ section_name ++ "' doesn't exist in " ++
           document ++ ".yml"))
  | _ => Except.error (ApiError.otherFault "membership test on non-mapping")

/-- True exactly when the handler outcome is a raised `HTTPException` with
status 404 (the only error the route handlers themselves produce). -/
def isHttp404 (r : Except ApiError α) : Bool :=
  match r with
  | Except.error (ApiError.httpException 404 _) => true
  | _ => false

/-- An input file as seen by the loader: its path and the outcome of the
out-of-scope black-box deserializer on its contents (`none` when the
contents are malformed and deserialization fails). -/
structure RawFile where
  path : String
  parseResult : Option Yaml

/-- Modelled from the spec: `documentHandler.read_yaml_file`, imported by
src/routes/user_document.py, is not under src/.  Per the spec it
deserializes the file (a malformed file is reported with a warning and
yields no content rather than an exception) and then applies the recursive
newline-trimming transform, exactly as the sibling `read_yaml_file` in
src/endpoint.py applies `transform_data` after `yaml.safe_load`.  The
warning is a logging side effect and is not modelled. -/
def read_yaml_file (input_file : RawFile) : Option Yaml :=
  match input_file.parseResult with
  | some content => some (transform_data content)
  | none => none

/-- Models Python `str.split(sep)` for a one-character separator, over the
character list of the string: splitting the empty string gives one empty
part, and each occurrence of the separator ends a part. -/
def pySplit (sep : Char) : List Char → List (List Char)
  | [] => [[]]
  | c :: rest =>
    match pySplit sep rest with
    | [] => [[c]]
    | h :: t => if c = sep then [] :: h :: t else (c :: h) :: t

/-- Models `os.path.basename`: the part of the path after the last
separator. -/
def basename (p : String) : String :=
  String.mk ((pySplit '/' p.data).getLastD p.data)

/-- Models `os.path.basename(input_file).split(".")[0]` in `load_document`:
the document name is the part of the base file name before the first
dot. -/
def deriveDocName (input_file : String) : String :=
  String.mk ((pySplit '.' (basename input_file).data).headD [])

/-- Models `load_document` from src/routes/user_document.py: read the file,
return `none` for an improperly formatted file, otherwise pair the derived
document name with the content. -/
def load_document (input_file : RawFile) : Option (String × Yaml) :=
  match read_yaml_file input_file with
  | none => none
  | some document_content => some (deriveDocName input_file.path, document_content)

/-- Models `populate_loaded_documents` from src/routes/user_document.py:
map `load_document` over the files (the thread pool yields results in input
order), skip `none` results, and assign each remaining pair into the dict
in order. -/
def populate_loaded_documents (files : List RawFile) : Store :=
  (files.filterMap load_document).foldl
    (fun loaded r => pyDictInsert loaded r.1 r.2) []

/-! ### Claims C1 to C4: query-service behaviour -/

/-- Claim C1: for every document name absent from the loaded-document
store, each of the five per-document query operations (get document, get
sections, get metadata, get document control, get section) fails with the
404 NotFound `HTTPException`, and none of them returns a value. -/
theorem absent_document_all_ops_not_found (store : Store) (d : String)
    (h : dictLookup store d = none) :
    get_document_content d store = Except.error (ApiError.httpException 404
      ("Document " ++ d ++ ".yml not found")) ∧
    get_document_content_sections d store = Except.error (ApiError.httpException 404
      ("Document " ++ d ++ ".yml not found")) ∧
    get_document_content_metadata d store = Except.error (ApiError.httpException 404
      ("Document " ++ d ++ ".yml not found")) ∧
    get_document_document_control d store = Except.error (ApiError.httpException 404
      ("Document " ++ d ++ ".yml not found")) ∧
    ∀ s : String, get_document_content_section d s store =
      Except.error (ApiError.httpException 404
        ("Document " ++ d ++ ".yml not found")) := by
  have hc : check_document_loaded d store = Except.error (ApiError.httpException 404
      ("Document " ++ d ++ ".yml not found")) := by
    simp [check_document_loaded, h]
  have hb : ∀ {α : Type} (f : Yaml → Except ApiError α),
      (check_document_loaded d store >>= f) =
        Except.error (ApiError.httpException 404
          ("Document " ++ d ++ ".yml not found")) := by
    intro α f
    rw [hc]
    rfl
  exact ⟨hc, hb _, hb _, hb _, fun s => hb _⟩

/-- Witness for claim C1 at the empty store and document name missing. -/
theorem absent_document_all_ops_not_found_witness :
    get_document_content "missing" ([] : Store) =
      Except.error (ApiError.httpException 404 "Document missing.yml not found") ∧
    get_document_content_sections "missing" ([] : Store) =
      Except.error (ApiError.httpException 404 "Document missing.yml not found") ∧
    get_document_content_metadata "missing" ([] : Store) =
      Except.error (ApiError.httpException 404 "Document missing.yml not found") ∧
    get_document_document_control "missing" ([] : Store) =
      Except.error (ApiError.httpException 404 "Document missing.yml not found") ∧
    get_document_content_section "missing" "purpose" ([] : Store) =
      Except.error (ApiError.httpException 404 "Document missing.yml not found") := by
  have h := absent_document_all_ops_not_found ([] : Store) "missing" rfl
  exact ⟨h.1, h.2.1, h.2.2.1, h.2.2.2.1, h.2.2.2.2 "purpose"⟩

/-- Bind on a successful computation reduces to the continuation. -/
theorem ok_bind {α β : Type} (a : α) (f : α → Except ApiError β) :
    (Except.ok a >>= f : Except ApiError β) = f a := rfl

/-- Map over a successful computation applies the function. -/
theorem ok_map {α β : Type} (a : α) (f : α → β) :
    (f <$> (Except.ok a : Except ApiError α)) = Except.ok (f a) := rfl

/-- The concrete scenario document of the spec: `policy_a.yml` after
loading. -/
def policyA : List (String × Yaml) :=
  [("type", Yaml.str "SOP"), ("document_no", Yaml.str "001"),
   ("title", Yaml.str "Access Control"), ("document_code", Yaml.str "AC-1"),
   ("effective_date", Yaml.str "2024-01-01"), ("document_rev", Yaml.str "1"),
   ("purpose", Yaml.list [Yaml.str "control access"]),
   ("revision_history", Yaml.list []), ("prepared_by", Yaml.list []),
   ("reviewed_approved_by", Yaml.list [])]

/-- A one-document store holding the concrete scenario document. -/
def exampleStore : Store := [("policy_a", Yaml.dict policyA)]

/-- Claim C2: for a document in the store, get section returns exactly the
value stored under the requested top-level key (the value the full
document holds at that key) when the key is present, and fails with a 404
`HTTPException` whose message names both the section and the document
exactly when the key is absent. -/
theorem get_section_returns_stored_value (store : Store) (d s : String)
    (es : List (String × Yaml))
    (h : dictLookup store d = some (Yaml.dict es)) :
    get_document_content d store = Except.ok (Yaml.dict es) ∧
    (∀ v : Yaml, dictLookup es s = some v →
      get_document_content_section d s store = Except.ok v) ∧
    (dictLookup es s = none →
      get_document_content_section d s store =
        Except.error (ApiError.httpException 404
          ("Section '" ++ s ++ "' doesn't exist in " ++ d ++ ".yml"))) := by
  have hok : check_document_loaded d store = Except.ok (Yaml.dict es) := by
    simp [check_document_loaded, h]
  have hsec : get_document_content_section d s store =
      (match dictLookup es s with
       | some v => Except.ok v
       | none => Except.error (ApiError.httpException 404
           ("Section '" ++ s ++ "' doesn't exist in " ++ d ++ ".yml"))) := by
    show (check_document_loaded d store >>= _) = _
    rw [hok]
    rfl
  refine ⟨hok, fun v hv => ?_, fun hn => ?_⟩
  · rw [hsec, hv]
  · rw [hsec, hn]

/-- Witness for claim C2 on the concrete scenario store: a present section
is returned, an absent one yields the 404 with the two names in the
message. -/
theorem get_section_returns_stored_value_witness :
    get_document_content_section "policy_a" "purpose" exampleStore =
      Except.ok (Yaml.list [Yaml.str "control access"]) ∧
    get_document_content_section "policy_a" "nope" exampleStore =
      Except.error (ApiError.httpException 404
        "Section 'nope' doesn't exist in policy_a.yml") :=
  ⟨(get_section_returns_stored_value exampleStore "policy_a" "purpose"
      policyA rfl).2.1 (Yaml.list [Yaml.str "control access"]) rfl,
   (get_section_returns_stored_value exampleStore "policy_a" "nope"
      policyA rfl).2.2 rfl⟩

/-- Claim C3: for a document in the store, get sections returns its list of
top-level keys with the string metadata inserted at index 6 and the string
document control inserted at index 10 of the already-modified list. -/
theorem get_sections_inserts_fixed_positions (store : Store) (d : String)
    (es : List (String × Yaml))
    (h : dictLookup store d = some (Yaml.dict es)) :
    get_document_content_sections d store =
      Except.ok (pyInsert (pyInsert (es.map Prod.fst) 6 "metadata")
        10 "document_control") := by
  have hok : check_document_loaded d store = Except.ok (Yaml.dict es) := by
    simp [check_document_loaded, h]
  show (check_document_loaded d store >>= _) = _
  rw [hok]
  rfl

/-- Witness for claim C3 on the concrete scenario store. -/
theorem get_sections_inserts_fixed_positions_witness :
    get_document_content_sections "policy_a" exampleStore =
      Except.ok ["type", "document_no", "title", "document_code",
        "effective_date", "document_rev", "metadata", "purpose",
        "revision_history", "prepared_by", "document_control",
        "reviewed_approved_by"] :=
  get_sections_inserts_fixed_positions exampleStore "policy_a" policyA rfl

/-- Claim C4: for a document in the store containing the six source fields,
get metadata returns exactly the six-entry mapping relabelling the type
field as document type and copying the other five fields, and nothing
else. -/
theorem get_metadata_six_field_projection (store : Store) (d : String)
    (es : List (String × Yaml)) (t no ed rev ti code : Yaml)
    (h : dictLookup store d = some (Yaml.dict es))
    (ht : dictLookup es "type" = some t)
    (hno : dictLookup es "document_no" = some no)
    (hed : dictLookup es "effective_date" = some ed)
    (hrev : dictLookup es "document_rev" = some rev)
    (hti : dictLookup es "title" = some ti)
    (hcode : dictLookup es "document_code" = some code) :
    get_document_content_metadata d store =
      Except.ok [("document_type", t), ("document_no", no),
        ("effective_date", ed), ("document_rev", rev), ("title", ti),
        ("document_code", code)] := by
  have hok : check_document_loaded d store = Except.ok (Yaml.dict es) := by
    simp [check_document_loaded, h]
  have hpg : ∀ (k : String) (v : Yaml), dictLookup es k = some v →
      pyGetItem (Yaml.dict es) k = Except.ok v := by
    intro k v hv
    simp [pyGetItem, hv]
  simp only [get_document_content_metadata, hok, ok_bind, hpg _ _ ht,
    hpg _ _ hno, hpg _ _ hed, hpg _ _ hrev, hpg _ _ hti, hpg _ _ hcode,
    ok_map]
  rfl

/-- Witness for claim C4 on the concrete scenario store. -/
theorem get_metadata_six_field_projection_witness :
    get_document_content_metadata "policy_a" exampleStore =
      Except.ok [("document_type", Yaml.str "SOP"),
        ("document_no", Yaml.str "001"),
        ("effective_date", Yaml.str "2024-01-01"),
        ("document_rev", Yaml.str "1"),
        ("title", Yaml.str "Access Control"),
        ("document_code", Yaml.str "AC-1")] :=
  get_metadata_six_field_projection exampleStore "policy_a" policyA
    (Yaml.str "SOP") (Yaml.str "001") (Yaml.str "2024-01-01")
    (Yaml.str "1") (Yaml.str "Access Control") (Yaml.str "AC-1")
    rfl rfl rfl rfl rfl rfl rfl

/-! ### Claim C9: get sections is total and always adds both synthetic names -/

/-- Shared computation lemma: on a loaded mapping document, the sections
handler returns the two `pyInsert` applications on the key list. -/
theorem get_sections_unfold (store : Store) (d : String)
    (es : List (String × Yaml))
    (h : dictLookup store d = some (Yaml.dict es)) :
    get_document_content_sections d store =
      Except.ok (pyInsert (pyInsert (es.map Prod.fst) 6 "metadata")
        10 "document_control") := by
  have hok : check_document_loaded d store = Except.ok (Yaml.dict es) := by
    simp [check_document_loaded, h]
  show (check_document_loaded d store >>= _) = _
  rw [hok]
  rfl

/-- Python list insert always grows the list by one element. -/
theorem pyInsert_length (l : List α) (i : Nat) (x : α) :
    (pyInsert l i x).length = l.length + 1 := by
  simp [pyInsert]
  omega

/-- The inserted element is a member of the result. -/
theorem self_mem_pyInsert (l : List α) (i : Nat) (x : α) :
    x ∈ pyInsert l i x := by
  simp [pyInsert]

/-- Insertion preserves the members of the original list. -/
theorem mem_pyInsert_of_mem (l : List α) (i : Nat) (x a : α) (h : a ∈ l) :
    a ∈ pyInsert l i x := by
  have h' : a ∈ l.take i ++ l.drop i := by
    rw [List.take_append_drop]
    exact h
  rcases List.mem_append.mp h' with h1 | h2
  · exact List.mem_append.mpr (Or.inl h1)
  · exact List.mem_append.mpr (Or.inr (List.mem_cons_of_mem _ h2))

/-- Python list insert at an index at or beyond the end appends. -/
theorem pyInsert_append_of_le (l : List α) (i : Nat) (x : α)
    (h : l.length ≤ i) : pyInsert l i x = l ++ [x] := by
  simp [pyInsert, List.take_of_length_le h, List.drop_of_length_le h]

/-- A two-key document, shorter than both insertion positions. -/
def tinyDoc : List (String × Yaml) := [("a", Yaml.nullv), ("b", Yaml.nullv)]

/-- A store holding only the two-key document. -/
def tinyStore : Store := [("tiny", Yaml.dict tinyDoc)]

/-- Claim C9: for every document in the store, get sections never fails,
even with fewer than 6 or 10 top-level keys: insertion at an index beyond
the end of the list appends, the result always has two more elements than
the document has top-level keys, and it always contains both metadata and
document control. -/
theorem get_sections_never_fails (store : Store) (d : String)
    (es : List (String × Yaml))
    (h : dictLookup store d = some (Yaml.dict es)) :
    (∀ (l : List String) (i : Nat) (x : String), l.length ≤ i →
      pyInsert l i x = l ++ [x]) ∧
    ∃ sections : List String,
      get_document_content_sections d store = Except.ok sections ∧
      sections.length = es.length + 2 ∧
      "metadata" ∈ sections ∧ "document_control" ∈ sections := by
  refine ⟨fun l i x hle => pyInsert_append_of_le l i x hle, ?_⟩
  refine ⟨_, get_sections_unfold store d es h, ?_, ?_, ?_⟩
  · rw [pyInsert_length, pyInsert_length, List.length_map]
  · exact mem_pyInsert_of_mem _ 10 "document_control" _
      (self_mem_pyInsert _ 6 "metadata")
  · exact self_mem_pyInsert _ 10 "document_control"

/-- Witness for claim C9 on a two-key document: both inserts append and
the result has length four. -/
theorem get_sections_never_fails_witness :
    pyInsert (["a", "b"] : List String) 6 "metadata" =
      ["a", "b"] ++ ["metadata"] ∧
    ∃ sections : List String,
      get_document_content_sections "tiny" tinyStore = Except.ok sections ∧
      sections.length = 2 + 2 ∧
      "metadata" ∈ sections ∧ "document_control" ∈ sections :=
  ⟨(get_sections_never_fails tinyStore "tiny" tinyDoc rfl).1
      ["a", "b"] 6 "metadata" (by decide),
   (get_sections_never_fails tinyStore "tiny" tinyDoc rfl).2⟩

/-! ### Claim C6: metadata projection on a document missing a source field -/

/-- Bind on a failed computation short-circuits. -/
theorem err_bind {α β : Type} (e : ApiError) (f : α → Except ApiError β) :
    (Except.error e >>= f : Except ApiError β) = Except.error e := rfl

/-- Map over a failed computation short-circuits. -/
theorem err_map {α β : Type} (e : ApiError) (f : α → β) :
    (f <$> (Except.error e : Except ApiError α)) = Except.error e := rfl

/-- The first of the six metadata source fields absent from a document, in
the evaluation order of the dict literal in
`get_document_content_metadata`. -/
def firstMissingField (es : List (String × Yaml)) : Option String :=
  if (dictLookup es "type").isNone then some "type"
  else if (dictLookup es "document_no").isNone then some "document_no"
  else if (dictLookup es "effective_date").isNone then some "effective_date"
  else if (dictLookup es "document_rev").isNone then some "document_rev"
  else if (dictLookup es "title").isNone then some "title"
  else if (dictLookup es "document_code").isNone then some "document_code"
  else none

/-- A document carrying five of the six metadata source fields but not
`type`. -/
def noTypeDoc : List (String × Yaml) :=
  [("document_no", Yaml.str "002"), ("effective_date", Yaml.str "2024-02-02"),
   ("document_rev", Yaml.str "2"), ("title", Yaml.str "No Type"),
   ("document_code", Yaml.str "NT-1")]

/-- A store holding only the document without a `type` field. -/
def noTypeStore : Store := [("no_type", Yaml.dict noTypeDoc)]

/-- A document carrying the metadata source fields except `title`. -/
def noTitleDoc : List (String × Yaml) :=
  [("type", Yaml.str "SOP"), ("document_no", Yaml.str "003"),
   ("effective_date", Yaml.str "2024-03-03"), ("document_rev", Yaml.str "1"),
   ("document_code", Yaml.str "NT-2")]

/-- A store holding only the document without a `title` field. -/
def noTitleStore : Store := [("no_title", Yaml.dict noTitleDoc)]

/-- Claim C6 counterexample: on a loaded document that lacks the `type`
field, get metadata does not fail like a NotFound lookup (no 404
`HTTPException` is raised); instead the handler hits an uncaught
`KeyError`, so the claim as stated is false at this input. -/
theorem get_metadata_missing_field_counterexample :
    get_document_content_metadata "no_type" noTypeStore =
      Except.error (ApiError.keyError "type") ∧
    isHttp404 (get_document_content_metadata "no_type" noTypeStore) = false :=
  ⟨rfl, rfl⟩

/-- Claim C6 amended: for every document in the store missing at least one
of the six metadata source fields, get metadata fails with an uncaught
`KeyError` naming the first missing field in the evaluation order of the
dict literal; the failure is not the 404 path of a lookup failure. -/
theorem get_metadata_missing_field_raises_key_error (store : Store)
    (d : String) (es : List (String × Yaml)) (k : String)
    (h : dictLookup store d = some (Yaml.dict es))
    (hk : firstMissingField es = some k) :
    get_document_content_metadata d store =
      Except.error (ApiError.keyError k) ∧
    isHttp404 (get_document_content_metadata d store) = false := by
  have hok : check_document_loaded d store = Except.ok (Yaml.dict es) := by
    simp [check_document_loaded, h]
  have hge : ∀ k' : String, dictLookup es k' = none →
      pyGetItem (Yaml.dict es) k' = Except.error (ApiError.keyError k') := by
    intro k' hk'
    simp [pyGetItem, hk']
  have hgs : ∀ (k' : String) (v : Yaml), dictLookup es k' = some v →
      pyGetItem (Yaml.dict es) k' = Except.ok v := by
    intro k' v hv
    simp [pyGetItem, hv]
  have hmain : get_document_content_metadata d store =
      Except.error (ApiError.keyError k) := by
    cases h1 : dictLookup es "type" with
    | none =>
      have hk' : k = "type" := by
        simp [firstMissingField, h1] at hk
        exact hk.symm
      subst hk'
      simp only [get_document_content_metadata, hok, ok_bind, hge _ h1,
        err_bind]
    | some t =>
      cases h2 : dictLookup es "document_no" with
      | none =>
        have hk' : k = "document_no" := by
          simp [firstMissingField, h1, h2] at hk
          exact hk.symm
        subst hk'
        simp only [get_document_content_metadata, hok, ok_bind, hgs _ _ h1,
          hge _ h2, err_bind]
      | some no =>
        cases h3 : dictLookup es "effective_date" with
        | none =>
          have hk' : k = "effective_date" := by
            simp [firstMissingField, h1, h2, h3] at hk
            exact hk.symm
          subst hk'
          simp only [get_document_content_metadata, hok, ok_bind,
            hgs _ _ h1, hgs _ _ h2, hge _ h3, err_bind]
        | some ed =>
          cases h4 : dictLookup es "document_rev" with
          | none =>
            have hk' : k = "document_rev" := by
              simp [firstMissingField, h1, h2, h3, h4] at hk
              exact hk.symm
            subst hk'
            simp only [get_document_content_metadata, hok, ok_bind,
              hgs _ _ h1, hgs _ _ h2, hgs _ _ h3, hge _ h4, err_bind]
          | some rev =>
            cases h5 : dictLookup es "title" with
            | none =>
              have hk' : k = "title" := by
                simp [firstMissingField, h1, h2, h3, h4, h5] at hk
                exact hk.symm
              subst hk'
              simp only [get_document_content_metadata, hok, ok_bind,
                hgs _ _ h1, hgs _ _ h2, hgs _ _ h3, hgs _ _ h4, hge _ h5,
                err_bind]
            | some ti =>
              cases h6 : dictLookup es "document_code" with
              | none =>
                have hk' : k = "document_code" := by
                  simp [firstMissingField, h1, h2, h3, h4, h5, h6] at hk
                  exact hk.symm
                subst hk'
                simp only [get_document_content_metadata, hok, ok_bind,
                  hgs _ _ h1, hgs _ _ h2, hgs _ _ h3, hgs _ _ h4,
                  hgs _ _ h5, hge _ h6, err_bind, err_map]
              | some code =>
                simp [firstMissingField, h1, h2, h3, h4, h5, h6] at hk
  refine ⟨hmain, ?_⟩
  rw [hmain]
  rfl

/-- Witness for the amended claim C6 on a document missing only `title`:
the handler result is the uncaught `KeyError` on `title`. -/
theorem get_metadata_missing_field_raises_key_error_witness :
    get_document_content_metadata "no_title" noTitleStore =
      Except.error (ApiError.keyError "title") ∧
    isHttp404 (get_document_content_metadata "no_title" noTitleStore) =
      false :=
  get_metadata_missing_field_raises_key_error noTitleStore "no_title"
    noTitleDoc "title" rfl rfl

/-! ### Claims C5 and C8: the load phase -/

/-- A deserializable file whose content is a one-field mapping. -/
def goodFile : RawFile :=
  ⟨"yml/policy_a.yml", some (Yaml.dict [("type", Yaml.str "SOP")])⟩

/-- A malformed file: the black-box deserializer fails on it. -/
def badFile : RawFile := ⟨"yml/broken.yml", none⟩

/-- Claim C5: a file whose contents fail to deserialize contributes
nothing to the store and loading of the remaining files continues: the
populated store is the one obtained with the malformed file absent.  The
loader is a total function, so no exception escapes the load phase; the
warning printed for the skipped file is a logging side effect outside the
model. -/
theorem malformed_file_skipped (pre post : List RawFile) (f : RawFile)
    (h : f.parseResult = none) :
    populate_loaded_documents (pre ++ f :: post) =
      populate_loaded_documents (pre ++ post) := by
  have hld : load_document f = none := by
    simp [load_document, read_yaml_file, h]
  simp [populate_loaded_documents, List.filterMap_append, List.filterMap_cons,
    hld]

/-- Witness for claim C5: one well-formed and one malformed file yield the
store holding only the well-formed document. -/
theorem malformed_file_skipped_witness :
    populate_loaded_documents [goodFile, badFile] =
      populate_loaded_documents [goodFile] ∧
    populate_loaded_documents [goodFile, badFile] =
      [("policy_a", Yaml.dict [("type", Yaml.str "SOP")])] :=
  ⟨malformed_file_skipped [goodFile] [] badFile rfl, rfl⟩

/-- Looking up a key after a Python dict assignment: the assigned key maps
to the new value, every other key is unchanged. -/
theorem dictLookup_pyDictInsert (m : List (String × Yaml)) (k k' : String)
    (v : Yaml) :
    dictLookup (pyDictInsert m k v) k' =
      if k = k' then some v else dictLookup m k' := by
  induction m with
  | nil => simp [pyDictInsert, dictLookup]
  | cons e rest ih =>
    obtain ⟨k0, v0⟩ := e
    by_cases h0 : k0 = k
    · subst h0
      simp only [pyDictInsert, if_pos rfl, dictLookup]
      split_ifs <;> simp_all [dictLookup]
    · simp only [pyDictInsert, if_neg h0, dictLookup, ih]
      split_ifs <;> simp_all

/-- Lookup in the fold that aggregates loader results: the last aggregated
pair carrying the key wins; with no such pair the accumulator decides. -/
theorem dictLookup_foldl_insert (rs : List (String × Yaml))
    (acc : List (String × Yaml)) (n : String) :
    dictLookup (rs.foldl (fun m r => pyDictInsert m r.1 r.2) acc) n =
      (match (rs.filter (fun r => r.1 = n)).getLast? with
       | some r => some r.2
       | none => dictLookup acc n) := by
  induction rs generalizing acc with
  | nil => simp
  | cons e rs ih =>
    obtain ⟨k, v⟩ := e
    rw [List.foldl_cons, ih]
    cases hl : (rs.filter (fun r => r.1 = n)).getLast? with
    | some r =>
      have hne : rs.filter (fun r => r.1 = n) ≠ [] := by
        intro hnil
        rw [hnil] at hl
        exact Option.noConfusion hl
      by_cases hk : k = n
      · have : (((k, v) :: rs).filter (fun r => r.1 = n)) =
            [(k, v)] ++ rs.filter (fun r => r.1 = n) := by
          simp [List.filter_cons, hk]
        rw [this, List.getLast?_append_of_ne_nil _ hne, hl]
      · have : (((k, v) :: rs).filter (fun r => r.1 = n)) =
            rs.filter (fun r => r.1 = n) := by
          simp [List.filter_cons, hk]
        rw [this, hl]
    | none =>
      have hnil : rs.filter (fun r => r.1 = n) = [] :=
        List.getLast?_eq_none_iff.mp hl
      rw [dictLookup_pyDictInsert]
      by_cases hk : k = n
      · have : (((k, v) :: rs).filter (fun r => r.1 = n)) = [(k, v)] := by
          simp [List.filter_cons, hk, hnil]
        rw [this]
        simp [hk]
      · have : (((k, v) :: rs).filter (fun r => r.1 = n)) = [] := by
          simp [List.filter_cons, hk, hnil]
        rw [this]
        simp [hk]

/-- Two files whose base names both start with `a` before the first dot:
both derive the document name `a`. -/
def fileA1 : RawFile := ⟨"yml/a.yml", some (Yaml.str "one")⟩

/-- The second file deriving the document name `a`. -/
def fileA2 : RawFile := ⟨"yml/a.v2.yml", some (Yaml.str "two")⟩

/-- Claim C8: aggregation is a total fold (it cannot crash), and for every
name the store holds the content of the last aggregated loader result with
that derived name: later files overwrite earlier ones with the same
name. -/
theorem store_last_writer_wins (files : List RawFile) (n : String)
    (r : String × Yaml)
    (h : ((files.filterMap load_document).filter
        (fun p => p.1 = n)).getLast? = some r) :
    dictLookup (populate_loaded_documents files) n = some r.2 := by
  unfold populate_loaded_documents
  rw [dictLookup_foldl_insert, h]

/-- Witness for claim C8: two files both deriving the name `a` (the second
through its base name part before the first dot); the store maps `a` to
the content of the later file. -/
theorem store_last_writer_wins_witness :
    dictLookup (populate_loaded_documents [fileA1, fileA2]) "a" =
      some (Yaml.str "two") :=
  store_last_writer_wins [fileA1, fileA2] "a" ("a", Yaml.str "two") rfl

/-! ### Claims C7 and C10: the newline-trimming transform -/

/-- The character list of a constructed string. -/
theorem data_mk (l : List Char) : (String.mk l).data = l := rfl

/-- The string does not end with a newline character. -/
def strNoTrailNL (s : String) : Bool :=
  match s.data.getLast? with
  | some c => !(c == '\n')
  | none => true

mutual

/-- No string anywhere in the structure, keys of mappings included, ends
with a newline character. -/
def noTrailNL : Yaml → Bool
  | Yaml.str s => strNoTrailNL s
  | Yaml.intv _ => true
  | Yaml.boolv _ => true
  | Yaml.nullv => true
  | Yaml.list xs => noTrailNLList xs
  | Yaml.dict es => noTrailNLEntries es

/-- The sequence clause of `noTrailNL`. -/
def noTrailNLList : List Yaml → Bool
  | [] => true
  | x :: xs => noTrailNL x && noTrailNLList xs

/-- The mapping clause of `noTrailNL`: checks keys and values. -/
def noTrailNLEntries : List (String × Yaml) → Bool
  | [] => true
  | (k, v) :: es => strNoTrailNL k && noTrailNL v && noTrailNLEntries es

end

/-- The head of the list left by `dropWhile` does not satisfy the
predicate. -/
theorem head_dropWhile_not (p : Char → Bool) (l : List Char) (c : Char)
    (h : (l.dropWhile p).head? = some c) : p c = false := by
  induction l with
  | nil => simp [List.dropWhile] at h
  | cons a l ih =>
    rw [List.dropWhile_cons] at h
    by_cases hp : p a
    · rw [if_pos hp] at h
      exact ih h
    · rw [if_neg hp] at h
      simp only [List.head?_cons, Option.some.injEq] at h
      rw [← h]
      exact Bool.not_eq_true _ ▸ eq_false_of_ne_true hp

/-- Stripping trailing newlines leaves a string that does not end with a
newline. -/
theorem strNoTrailNL_rstrip (s : String) :
    strNoTrailNL (rstripNewlines s) = true := by
  unfold strNoTrailNL rstripNewlines
  rw [data_mk, List.getLast?_reverse]
  cases hh : (s.data.reverse.dropWhile (fun c => c == '\n')).head? with
  | none => rfl
  | some c =>
    have hc := head_dropWhile_not (fun c => c == '\n') s.data.reverse c hh
    simp [hc]

mutual

/-- After the transform, no string in the value has a trailing newline. -/
theorem noTrailNL_transform : ∀ y : Yaml, noTrailNL (transform_data y) = true
  | Yaml.str s => by simp [transform_data, noTrailNL, strNoTrailNL_rstrip]
  | Yaml.intv n => rfl
  | Yaml.boolv b => rfl
  | Yaml.nullv => rfl
  | Yaml.list xs => by
      simp [transform_data, noTrailNL, noTrailNLList_transform xs]
  | Yaml.dict es => by
      simp [transform_data, noTrailNL, noTrailNLEntries_transform es]

/-- The sequence clause of `noTrailNL_transform`. -/
theorem noTrailNLList_transform :
    ∀ xs : List Yaml, noTrailNLList (transformList xs) = true
  | [] => rfl
  | x :: xs => by
      simp [transformList, noTrailNLList, noTrailNL_transform x,
        noTrailNLList_transform xs]

/-- The mapping clause of `noTrailNL_transform`. -/
theorem noTrailNLEntries_transform :
    ∀ es : List (String × Yaml), noTrailNLEntries (transformEntries es) = true
  | [] => rfl
  | (k, v) :: es => by
      simp [transformEntries, noTrailNLEntries, strNoTrailNL_rstrip,
        noTrailNL_transform v, noTrailNLEntries_transform es]

end

/-- A list whose last element exists contains it. -/
theorem mem_of_getLast_some {α : Type} (l : List α) (a : α)
    (h : l.getLast? = some a) : a ∈ l := by
  obtain ⟨hne, heq⟩ := List.mem_getLast?_eq_getLast (l := l) (x := a) h
  rw [heq]
  exact List.getLast_mem hne

/-- Every value in the populated store is the transform of the parse of
one of the input files, the one whose derived name is the key. -/
theorem store_value_from_file (files : List RawFile) (d : String) (c : Yaml)
    (hl : dictLookup (populate_loaded_documents files) d = some c) :
    ∃ f ∈ files, ∃ y : Yaml, f.parseResult = some y ∧
      c = transform_data y ∧ deriveDocName f.path = d := by
  rw [populate_loaded_documents, dictLookup_foldl_insert] at hl
  cases hg : ((files.filterMap load_document).filter
      (fun r => r.1 = d)).getLast? with
  | none =>
    rw [hg] at hl
    simp [dictLookup] at hl
  | some r =>
    rw [hg] at hl
    have hrc : r.2 = c := by
      simpa using hl
    have hrmem : r ∈ (files.filterMap load_document).filter
        (fun r => r.1 = d) := mem_of_getLast_some _ _ hg
    have hrname : r.1 = d := by
      have := List.of_mem_filter hrmem
      simpa using this
    have hrload : r ∈ files.filterMap load_document :=
      List.mem_of_mem_filter hrmem
    obtain ⟨f, hf, hload⟩ := List.mem_filterMap.mp hrload
    cases hp : f.parseResult with
    | none =>
      rw [load_document, read_yaml_file, hp] at hload
      exact Option.noConfusion hload
    | some y =>
      rw [load_document, read_yaml_file, hp] at hload
      have hpair : (deriveDocName f.path, transform_data y) = r :=
        Option.some.inj hload
      refine ⟨f, hf, y, hp, ?_, ?_⟩
      · rw [← hrc, ← hpair]
      · rw [← hrname, ← hpair]

/-- Claim C7: for every document in the store, get document returns the
parsed content of its source file after the recursive newline-trimming
transform; no string anywhere in the returned structure, at any depth
inside sequences or mappings, ends with a newline, and the transform
leaves every non-string leaf unchanged. -/
theorem get_document_returns_trimmed_parse (files : List RawFile)
    (d : String) (c : Yaml)
    (h : get_document_content d (populate_loaded_documents files) =
      Except.ok c) :
    (∃ f ∈ files, ∃ y : Yaml, f.parseResult = some y ∧
      c = transform_data y ∧ deriveDocName f.path = d) ∧
    noTrailNL c = true ∧
    (∀ n : Int, transform_data (Yaml.intv n) = Yaml.intv n) ∧
    (∀ b : Bool, transform_data (Yaml.boolv b) = Yaml.boolv b) ∧
    transform_data Yaml.nullv = Yaml.nullv := by
  have hl : dictLookup (populate_loaded_documents files) d = some c := by
    cases hm : dictLookup (populate_loaded_documents files) d with
    | some c0 =>
      have h2 : get_document_content d (populate_loaded_documents files) =
          Except.ok c0 := by
        simp [get_document_content, check_document_loaded, hm]
      rw [h2] at h
      injection h with h3
      rw [h3]
    | none =>
      have h2 : get_document_content d (populate_loaded_documents files) =
          Except.error (ApiError.httpException 404
            ("Document " ++ d ++ ".yml not found")) := by
        simp [get_document_content, check_document_loaded, hm]
      rw [h2] at h
      exact Except.noConfusion h
  obtain ⟨f, hf, y, hy, hc, hname⟩ := store_value_from_file files d c hl
  refine ⟨⟨f, hf, y, hy, hc, hname⟩, ?_, fun n => rfl, fun b => rfl, rfl⟩
  rw [hc]
  exact noTrailNL_transform y

/-- A file whose content carries a trailing newline inside a nested
sequence. -/
def nlFile : RawFile :=
  ⟨"yml/policy_a.yml", some (Yaml.dict
    [("purpose", Yaml.list [Yaml.str "control access\n"])])⟩

/-- Witness for claim C7: the loaded document is the transform of the
parsed file, with the nested trailing newline stripped. -/
theorem get_document_returns_trimmed_parse_witness :
    (∃ f ∈ [nlFile], ∃ y : Yaml, f.parseResult = some y ∧
      Yaml.dict [("purpose", Yaml.list [Yaml.str "control access"])] =
        transform_data y ∧ deriveDocName f.path = "policy_a") ∧
    noTrailNL (Yaml.dict
      [("purpose", Yaml.list [Yaml.str "control access"])]) = true ∧
    (∀ n : Int, transform_data (Yaml.intv n) = Yaml.intv n) ∧
    (∀ b : Bool, transform_data (Yaml.boolv b) = Yaml.boolv b) ∧
    transform_data Yaml.nullv = Yaml.nullv :=
  get_document_returns_trimmed_parse [nlFile] "policy_a"
    (Yaml.dict [("purpose", Yaml.list [Yaml.str "control access"])]) rfl

/-- Dropping a prefix satisfying a predicate twice is the same as doing it
once: the head of the remainder already fails the predicate. -/
theorem dropWhile_idem (p : Char → Bool) (l : List Char) :
    (l.dropWhile p).dropWhile p = l.dropWhile p := by
  induction l with
  | nil => rfl
  | cons a l ih =>
    rw [List.dropWhile_cons]
    by_cases hp : p a
    · rw [if_pos hp]
      exact ih
    · rw [if_neg hp, List.dropWhile_cons, if_neg hp]

/-- Stripping trailing newlines is idempotent. -/
theorem rstripNewlines_idem (s : String) :
    rstripNewlines (rstripNewlines s) = rstripNewlines s := by
  unfold rstripNewlines
  rw [data_mk, List.reverse_reverse, dropWhile_idem]

mutual

/-- The transform applied twice equals the transform applied once. -/
theorem transform_data_idem :
    ∀ y : Yaml, transform_data (transform_data y) = transform_data y
  | Yaml.str s => by simp [transform_data, rstripNewlines_idem]
  | Yaml.intv n => rfl
  | Yaml.boolv b => rfl
  | Yaml.nullv => rfl
  | Yaml.list xs => by simp [transform_data, transformList_idem xs]
  | Yaml.dict es => by simp [transform_data, transformEntries_idem es]

/-- The sequence clause of `transform_data_idem`. -/
theorem transformList_idem :
    ∀ xs : List Yaml, transformList (transformList xs) = transformList xs
  | [] => rfl
  | x :: xs => by
      simp [transformList, transform_data_idem x, transformList_idem xs]

/-- The mapping clause of `transform_data_idem`. -/
theorem transformEntries_idem :
    ∀ es : List (String × Yaml),
      transformEntries (transformEntries es) = transformEntries es
  | [] => rfl
  | (k, v) :: es => by
      simp [transformEntries, rstripNewlines_idem, transform_data_idem v,
        transformEntries_idem es]

end

/-- Claim C10: the recursive newline-trimming transform is idempotent on
every input structure, through any nesting of mappings, sequences,
strings and other scalars. -/
theorem transform_data_idempotent (y : Yaml) :
    transform_data (transform_data y) = transform_data y :=
  transform_data_idem y
